import Mathlib

/-!
# Pod sandbox commands of the command-line client (`cmd/client/sandbox.go`)

A shallow embedding of the five operations `RunPodSandbox`, `StopPodSandbox`,
`RemovePodSandbox`, `PodSandboxStatus` and `ListPodSandboxes`.

* A Go pointer field is an `Option`: `none` is the nil pointer.
* A Go `map[string]string` is an `Option (List (String × String))`: `none` is the
  nil map, `some es` a non-nil map whose `range` loop visits the entries in the
  order of `es` (`some []` is a non-nil map without entries).
* Standard output is the list of texts written, one element per `fmt.Printf` /
  `fmt.Println` call, in the order of the calls.
* A run ends by `return nil`, by `return err`, or by the run-time panic of a nil
  pointer dereference; the texts written before a panic stay written.
* The remote runtime service is a record of response functions; every remote
  call a run issues is logged with the request it carried. A call that succeeds
  yields a response value (the generated client never pairs a nil response with
  a nil error), and the summaries of a list response are values.
* A line of the output is the text of one print call; a line "of a kind" (a
  Name line, a Created line, ...) is a text that starts with the label of that
  kind.
-/

/-- A Go `error` value, identified by its message. -/
abbrev GoError := String

namespace pb

/-- Modelled from the spec: the lifecycle state enumeration of the protocol
package, whose declaration is not in the source file ("enumerated: UNKNOWN /
READY / NOT_READY, server-defined"). -/
inductive PodSandboxState where
  | UNKNOWN
  | READY
  | NOT_READY
  deriving DecidableEq, Repr

/-- Modelled from the spec: the `String()` method of the state enumeration,
missing from the source file ("printed as its symbolic name (not a numeric
code)"). -/
def PodSandboxState.name : PodSandboxState → String
  | .UNKNOWN => "UNKNOWN"
  | .READY => "READY"
  | .NOT_READY => "NOT_READY"

/-- Modelled from the spec: the metadata message of the protocol package (its
declaration is missing); the fields are those the source file reads, `Attempt`
being a `*uint32`. -/
structure PodSandboxMetadata where
  Name : Option String
  Uid : Option String
  Namespace : Option String
  Attempt : Option Nat
  deriving DecidableEq, Repr

/-- Modelled from the spec: the namespace message inside the Linux block (its
declaration is missing); `Network` is the network namespace path. -/
structure Namespace where
  Network : Option String
  deriving DecidableEq, Repr

/-- Modelled from the spec: the Linux-specific detail block of a status (its
declaration is missing). -/
structure LinuxPodSandboxStatus where
  Namespaces : Option Namespace
  deriving DecidableEq, Repr

/-- Modelled from the spec: the network block of a status (its declaration is
missing); `Ip` is the assigned IP address. -/
structure PodSandboxNetworkStatus where
  Ip : Option String
  deriving DecidableEq, Repr

/-- Modelled from the spec: the status snapshot message (its declaration is
missing); `CreatedAt` is a `*int64` of epoch seconds. -/
structure PodSandboxStatus where
  Id : Option String
  Metadata : Option PodSandboxMetadata
  State : Option PodSandboxState
  CreatedAt : Option Int
  Network : Option PodSandboxNetworkStatus
  Linux : Option LinuxPodSandboxStatus
  Labels : Option (List (String × String))
  Annotations : Option (List (String × String))
  deriving DecidableEq, Repr

/-- Modelled from the spec: one summary of a list response (its declaration is
missing): "same shape as SandboxStatus but without the Linux network-namespace
detail"; the fields are those the source file reads. -/
structure PodSandbox where
  Id : Option String
  Metadata : Option PodSandboxMetadata
  State : Option PodSandboxState
  CreatedAt : Option Int
  Labels : Option (List (String × String))
  Annotations : Option (List (String × String))
  deriving DecidableEq, Repr

/-- Modelled from the spec: the sandbox configuration message (its declaration
is missing): the metadata block "plus runtime-specific fields (network/linux
settings) opaque to this core", kept as one value `Rest` of an arbitrary type. -/
structure PodSandboxConfig (ρ : Type) where
  Metadata : Option PodSandboxMetadata
  Rest : ρ
  deriving DecidableEq, Repr

/-- Modelled from the spec: the create request (declaration missing), "config
(required)". -/
structure RunPodSandboxRequest (ρ : Type) where
  Config : Option (PodSandboxConfig ρ)
  deriving DecidableEq, Repr

/-- Modelled from the spec: the create response (declaration missing),
carrying the identifier. -/
structure RunPodSandboxResponse where
  PodSandboxId : Option String
  deriving DecidableEq, Repr

/-- Modelled from the spec: the stop request (declaration missing). -/
structure StopPodSandboxRequest where
  PodSandboxId : Option String
  deriving DecidableEq, Repr

/-- Modelled from the spec: the remove request (declaration missing). -/
structure RemovePodSandboxRequest where
  PodSandboxId : Option String
  deriving DecidableEq, Repr

/-- Modelled from the spec: the status request (declaration missing). -/
structure PodSandboxStatusRequest where
  PodSandboxId : Option String
  deriving DecidableEq, Repr

/-- Modelled from the spec: the status response (declaration missing). -/
structure PodSandboxStatusResponse where
  Status : Option PodSandboxStatus
  deriving DecidableEq, Repr

/-- Modelled from the spec: the list request (declaration missing); the source
file sets none of its fields ("a request with no filtering"). -/
structure ListPodSandboxRequest where
  deriving DecidableEq, Repr

/-- Modelled from the spec: the list response (declaration missing), an
"ordered sequence of summaries". -/
structure ListPodSandboxResponse where
  Items : List PodSandbox
  deriving DecidableEq, Repr

/-- Modelled from the spec: the remote runtime service interface (declaration
missing), one response function per operation of the contract table; a
response function answers a request with a response or with an error. -/
structure RuntimeServiceClient (ρ : Type) where
  RunPodSandbox : RunPodSandboxRequest ρ → Except GoError RunPodSandboxResponse
  StopPodSandbox : StopPodSandboxRequest → Except GoError Unit
  RemovePodSandbox : RemovePodSandboxRequest → Except GoError Unit
  PodSandboxStatus : PodSandboxStatusRequest → Except GoError PodSandboxStatusResponse
  ListPodSandbox : ListPodSandboxRequest → Except GoError ListPodSandboxResponse

end pb

/-- One remote call issued by a run, with the request passed to it. -/
inductive Call (ρ : Type) where
  | RunPodSandbox (req : pb.RunPodSandboxRequest ρ)
  | StopPodSandbox (req : pb.StopPodSandboxRequest)
  | RemovePodSandbox (req : pb.RemovePodSandboxRequest)
  | PodSandboxStatus (req : pb.PodSandboxStatusRequest)
  | ListPodSandbox (req : pb.ListPodSandboxRequest)
  deriving DecidableEq, Repr

/-- How a run of an operation ends. -/
inductive Exit where
  /-- The operation executed `return nil`. -/
  | ok
  /-- The operation executed `return err`. -/
  | err (e : GoError)
  /-- The run stopped in a nil pointer dereference (run-time panic). -/
  | nilDeref
  deriving DecidableEq, Repr

/-- The observable behaviour of one run of an operation. -/
structure Run (ρ : Type) where
  calls : List (Call ρ)
  stdout : List String
  exit : Exit
  deriving DecidableEq, Repr

/-- The whole text on standard output. -/
def Run.text {ρ : Type} (r : Run ρ) : String := String.join r.stdout

/-- The effect of a sequence of Go statements that only read and print: the
texts written, and whether the sequence ran to its end (`false`: it stopped in
a nil pointer dereference). -/
structure Block where
  out : List String
  done : Bool
  deriving DecidableEq, Repr

namespace Block

/-- The empty statement sequence. -/
def nop : Block := ⟨[], true⟩

/-- One `fmt.Printf` / `fmt.Println` call writing `s`. -/
def print (s : String) : Block := ⟨[s], true⟩

/-- A nil pointer dereference. -/
def fault : Block := ⟨[], false⟩

/-- Sequential composition `a; b`: `b` runs only if `a` ran to its end. -/
def andThen (a b : Block) : Block :=
  if a.done then ⟨a.out ++ b.out, b.done⟩ else a

/-- The statements of a list, one after the other (also a `for ... range` loop
over the list of its iterations). -/
def seq : List Block → Block
  | [] => nop
  | b :: bs => andThen b (seq bs)

/-- The dereference `*p` (or `p.f`) used by the statement `k`: a panic when `p`
is nil. -/
def deref {α : Type} (p : Option α) (k : α → Block) : Block :=
  match p with
  | none => fault
  | some a => k a

/-- The guarded statement `if p != nil { k }`. -/
def whenSome {α : Type} (p : Option α) (k : α → Block) : Block :=
  match p with
  | none => nop
  | some a => k a

end Block

/-- The verb `%s` applied to a `*PodSandboxState`: `fmt` calls the `String()`
method through the pointer, and prints `<nil>` for the nil pointer. -/
def fmtState : Option pb.PodSandboxState → String
  | none => "<nil>"
  | some s => s.name

/-- The statement `config.Metadata.Name = &name`: a store through the
`Metadata` pointer, `none` when that pointer is nil (nil pointer dereference). -/
def setMetadataName {ρ : Type} (config : pb.PodSandboxConfig ρ) (name : String) :
    Option (pb.PodSandboxConfig ρ) :=
  match config.Metadata with
  | none => none
  | some md => some { config with Metadata := some { md with Name := some name } }

/-- The function `RunPodSandbox` (lines 165-182). The config loader, a function of this
repository outside the source file, is the parameter `loadPodSandboxConfig`. -/
def RunPodSandbox {ρ : Type}
    (loadPodSandboxConfig : String → Except GoError (pb.PodSandboxConfig ρ))
    (client : pb.RuntimeServiceClient ρ) (path : String) (name : String) : Run ρ :=
  match loadPodSandboxConfig path with
  | .error err => ⟨[], [], .err err⟩
  | .ok config =>
    -- Override the name by the one specified through CLI
    match (if name ≠ "" then setMetadataName config name else some config) with
    | none => ⟨[], [], .nilDeref⟩
    | some config =>
      match client.RunPodSandbox ⟨some config⟩ with
      | .error err => ⟨[.RunPodSandbox ⟨some config⟩], [], .err err⟩
      | .ok r =>
        match r.PodSandboxId with
        | none => ⟨[.RunPodSandbox ⟨some config⟩], [], .nilDeref⟩
        | some id => ⟨[.RunPodSandbox ⟨some config⟩], [id ++ "\n"], .ok⟩

/-- The function `StopPodSandbox` (lines 186-196). -/
def StopPodSandbox {ρ : Type} (client : pb.RuntimeServiceClient ρ) (ID : String) : Run ρ :=
  if ID = "" then ⟨[], [], .err "ID cannot be empty"⟩
  else
    match client.StopPodSandbox ⟨some ID⟩ with
    | .error err => ⟨[.StopPodSandbox ⟨some ID⟩], [], .err err⟩
    | .ok _ => ⟨[.StopPodSandbox ⟨some ID⟩], [ID ++ "\n"], .ok⟩

/-- The function `RemovePodSandbox` (lines 200-210). -/
def RemovePodSandbox {ρ : Type} (client : pb.RuntimeServiceClient ρ) (ID : String) : Run ρ :=
  if ID = "" then ⟨[], [], .err "ID cannot be empty"⟩
  else
    match client.RemovePodSandbox ⟨some ID⟩ with
    | .error err => ⟨[.RemovePodSandbox ⟨some ID⟩], [], .err err⟩
    | .ok _ => ⟨[.RemovePodSandbox ⟨some ID⟩], [ID ++ "\n"], .ok⟩

/-- The statements of `PodSandboxStatus` that print the identifier and the
metadata block (lines 222-236), for the status `status` of the response. -/
def statusHead (status : pb.PodSandboxStatus) : List Block :=
  [ Block.deref status.Id fun id => Block.print ("ID: " ++ id ++ "\n"),
    Block.whenSome status.Metadata fun md =>
      Block.seq [
        Block.whenSome md.Name fun v => Block.print ("Name: " ++ v ++ "\n"),
        Block.whenSome md.Uid fun v => Block.print ("UID: " ++ v ++ "\n"),
        Block.whenSome md.Namespace fun v => Block.print ("Namespace: " ++ v ++ "\n"),
        Block.whenSome md.Attempt fun v => Block.print ("Attempt: " ++ toString v ++ "\n")] ]

/-- The statements of `PodSandboxStatus` that print state, creation time,
network namespace and IP address (lines 237-249). `fmtTime t` is the text `%v`
gives for `time.Unix(t, 0)`, which depends on the local time zone. -/
def statusDetail (fmtTime : Int → String) (status : pb.PodSandboxStatus) : List Block :=
  [ Block.whenSome status.State fun _ =>
      Block.print ("Status: " ++ fmtState status.State ++ "\n"),
    Block.whenSome status.CreatedAt fun t =>
      Block.print ("Created: " ++ fmtTime t ++ "\n"),
    Block.whenSome status.Linux fun linux =>
      Block.deref linux.Namespaces fun ns =>
      Block.deref ns.Network fun v => Block.print ("Network namespace: " ++ v ++ "\n"),
    Block.whenSome status.Network fun network =>
      Block.deref network.Ip fun v => Block.print ("IP Address: " ++ v ++ "\n") ]

/-- The statements of `PodSandboxStatus` that print labels and annotations
(lines 250-261). -/
def statusMaps (status : pb.PodSandboxStatus) : List Block :=
  [ Block.whenSome status.Labels fun labels =>
      Block.seq (Block.print "Labels:\n" ::
        labels.map fun kv => Block.print ("\t" ++ kv.1 ++ " -> " ++ kv.2 ++ "\n")),
    Block.whenSome status.Annotations fun annotations =>
      Block.seq (Block.print "Annotations:\n" ::
        annotations.map fun kv => Block.print ("\t" ++ kv.1 ++ " -> " ++ kv.2 ++ "\n")) ]

/-- The printing statements of `PodSandboxStatus` (lines 222-261) on the
response `r`; every one of them reads through the pointer `r.Status`. -/
def statusBlock (fmtTime : Int → String) (r : pb.PodSandboxStatusResponse) : Block :=
  Block.deref r.Status fun status =>
  Block.seq (statusHead status ++ statusDetail fmtTime status ++ statusMaps status)

/-- The function `PodSandboxStatus` (lines 214-263): the identifier check, the
remote call, then the printing statements. -/
def PodSandboxStatus {ρ : Type} (fmtTime : Int → String)
    (client : pb.RuntimeServiceClient ρ) (ID : String) : Run ρ :=
  if ID = "" then ⟨[], [], .err "ID cannot be empty"⟩
  else
    match client.PodSandboxStatus ⟨some ID⟩ with
    | .error err => ⟨[.PodSandboxStatus ⟨some ID⟩], [], .err err⟩
    | .ok r =>
      ⟨[.PodSandboxStatus ⟨some ID⟩], (statusBlock fmtTime r).out,
        if (statusBlock fmtTime r).done then .ok else .nilDeref⟩

/-- The statements of the loop body of `ListPodSandboxes` that print the
identifier and the metadata block of the summary `pod` (lines 277-291). -/
def podHead (pod : pb.PodSandbox) : List Block :=
  [ Block.deref pod.Id fun id => Block.print ("ID: " ++ id ++ "\n"),
    Block.whenSome pod.Metadata fun md =>
      Block.seq [
        Block.whenSome md.Name fun v => Block.print ("Name: " ++ v ++ "\n"),
        Block.whenSome md.Uid fun v => Block.print ("UID: " ++ v ++ "\n"),
        Block.whenSome md.Namespace fun v => Block.print ("Namespace: " ++ v ++ "\n"),
        Block.whenSome md.Attempt fun v => Block.print ("Attempt: " ++ toString v ++ "\n")] ]

/-- The statements of the loop body that print state and creation time (lines
292-294): neither is guarded, the state pointer is handed to `%s` as it is and
the creation time pointer is dereferenced. -/
def podDetail (fmtTime : Int → String) (pod : pb.PodSandbox) : List Block :=
  [ Block.print ("Status: " ++ fmtState pod.State ++ "\n"),
    Block.deref pod.CreatedAt fun t => Block.print ("Created: " ++ fmtTime t ++ "\n") ]

/-- The statements of the loop body that print labels and annotations (lines
295-306). -/
def podMaps (pod : pb.PodSandbox) : List Block :=
  [ Block.whenSome pod.Labels fun labels =>
      Block.seq (Block.print "Labels:\n" ::
        labels.map fun kv => Block.print ("\t" ++ kv.1 ++ " -> " ++ kv.2 ++ "\n")),
    Block.whenSome pod.Annotations fun annotations =>
      Block.seq (Block.print "Annotations:\n" ::
        annotations.map fun kv => Block.print ("\t" ++ kv.1 ++ " -> " ++ kv.2 ++ "\n")) ]

/-- The body of the loop of `ListPodSandboxes` (lines 273-306) for one summary. -/
def podBlock (fmtTime : Int → String) (quiet : Bool) (pod : pb.PodSandbox) : Block :=
  if quiet then
    Block.deref pod.Id fun id => Block.print (id ++ "\n")
  else
    Block.seq (podHead pod ++ podDetail fmtTime pod ++ podMaps pod)

/-- The function `ListPodSandboxes` (lines 267-309): the remote call, then the
loop over the summaries of the response. -/
def ListPodSandboxes {ρ : Type} (fmtTime : Int → String)
    (client : pb.RuntimeServiceClient ρ) (quiet : Bool) : Run ρ :=
  match client.ListPodSandbox {} with
  | .error err => ⟨[.ListPodSandbox {}], [], .err err⟩
  | .ok r =>
    ⟨[.ListPodSandbox {}], (Block.seq (r.Items.map (podBlock fmtTime quiet))).out,
      if (Block.seq (r.Items.map (podBlock fmtTime quiet))).done then .ok else .nilDeref⟩

/-! ## Stand-ins used at concrete inputs -/

/-- A time rendering for concrete runs: the epoch seconds in decimal. -/
def epochText (t : Int) : String := toString t

/-- A remote service for concrete runs: it accepts every create, stop and
remove call (a create call gets the identifier `new-id`) and answers the status
and list calls with the given results. -/
def standIn (status : Except GoError pb.PodSandboxStatusResponse)
    (list : Except GoError pb.ListPodSandboxResponse) : pb.RuntimeServiceClient Unit where
  RunPodSandbox := fun _ => .ok ⟨some "new-id"⟩
  StopPodSandbox := fun _ => .ok ()
  RemovePodSandbox := fun _ => .ok ()
  PodSandboxStatus := fun _ => status
  ListPodSandbox := fun _ => list

/-- A remote service for concrete runs that answers every call with the error `e`. -/
def failing (e : GoError) : pb.RuntimeServiceClient Unit where
  RunPodSandbox := fun _ => .error e
  StopPodSandbox := fun _ => .error e
  RemovePodSandbox := fun _ => .error e
  PodSandboxStatus := fun _ => .error e
  ListPodSandbox := fun _ => .error e

/-- A config loader for concrete runs: the file `config.json` holds `config`,
every other path is reported missing. -/
def loadFrom (config : pb.PodSandboxConfig Unit) (path : String) :
    Except GoError (pb.PodSandboxConfig Unit) :=
  if path = "config.json" then .ok config else .error ("config at " ++ path ++ " not found")

/-- A status for concrete runs: every field present except the UID, the
Linux block and the annotations. -/
def sampleStatus : pb.PodSandboxStatus where
  Id := some "s1"
  Metadata := some ⟨some "web", none, some "prod", some 2⟩
  State := some .READY
  CreatedAt := some 7
  Network := some ⟨some "10.0.0.5"⟩
  Linux := none
  Labels := some [("app", "web")]
  Annotations := none

/-- Two summaries for concrete runs: the first with a UID, a state, a creation
time and a label, the second with its identifier and creation time only. -/
def sampleItems : List pb.PodSandbox :=
  [ ⟨some "s1", some ⟨none, some "u1", none, none⟩, some .READY, some 7,
      some [("app", "web")], none⟩,
    ⟨some "s2", none, none, some 8, none, none⟩ ]

/-! ## Vocabulary of the rendering rules -/

/-- The text `c` of one print call starts with `label`. -/
def IsLine (label c : String) : Prop := label.data <+: c.data

instance (label c : String) : Decidable (IsLine label c) := by
  unfold IsLine
  infer_instance

/-- The text `c` starts with one of the labels `ls`. -/
def Labelled (ls : List String) (c : String) : Prop := ∃ l ∈ ls, IsLine l c

/-- The labels of all lines that can follow the metadata block. -/
def tailLabels : List String :=
  ["Status: ", "Created: ", "Network namespace: ", "IP Address: ", "Labels:\n",
    "Annotations:\n", "\t"]

/-- The labels of all lines that can precede the mapping sections. -/
def headLabels : List String :=
  ["ID: ", "Name: ", "UID: ", "Namespace: ", "Attempt: ", "Status: ", "Created: ",
    "Network namespace: ", "IP Address: "]

/-- The text `c` is one of the four lines of the metadata block. -/
def IsMetadataLine (c : String) : Prop :=
  IsLine "Name: " c ∨ IsLine "UID: " c ∨ IsLine "Namespace: " c ∨ IsLine "Attempt: " c

/-- Rule 2 of the rendering rules, in the spec's words: nothing when the
metadata container is absent; otherwise, in the fixed order Name, UID,
Namespace, Attempt, one line for each field that is present. -/
def specMetadataLines (md : Option pb.PodSandboxMetadata) : List String :=
  match md with
  | none => []
  | some m =>
    [("Name: ", m.Name), ("UID: ", m.Uid), ("Namespace: ", m.Namespace),
      ("Attempt: ", m.Attempt.map toString)].filterMap
        fun lv => lv.2.map fun v => lv.1 ++ v ++ "\n"

/-- The section of a mapping that is printed whenever the mapping is present:
nothing for an absent mapping; for a present one the header line `header`,
then one `key -> value` line per entry. -/
def specMapSection (header : String) (m : Option (List (String × String))) : List String :=
  match m with
  | none => []
  | some es => header :: es.map fun kv => "\t" ++ kv.1 ++ " -> " ++ kv.2 ++ "\n"

/-! ## Identifier validation and request construction -/

/-- C1: for the empty identifier, each of `StopPodSandbox`, `RemovePodSandbox`
and `PodSandboxStatus` returns an error (the value `ID cannot be empty`), issues
no remote call and prints nothing, whatever the remote service is. -/
theorem empty_identifier_rejected {ρ : Type} (fmtTime : Int → String)
    (client : pb.RuntimeServiceClient ρ) :
    StopPodSandbox client "" = ⟨[], [], .err "ID cannot be empty"⟩ ∧
    RemovePodSandbox client "" = ⟨[], [], .err "ID cannot be empty"⟩ ∧
    PodSandboxStatus fmtTime client "" = ⟨[], [], .err "ID cannot be empty"⟩ := by
  refine ⟨?_, ?_, ?_⟩
  · simp [StopPodSandbox]
  · simp [RemovePodSandbox]
  · simp [PodSandboxStatus]

/-- C4: for every non-empty identifier, each of `StopPodSandbox`,
`RemovePodSandbox` and `PodSandboxStatus` issues exactly one remote call, of its
own operation, and the request of that call carries exactly the identifier
given, whatever the remote service answers. -/
theorem nonempty_identifier_one_call {ρ : Type} (fmtTime : Int → String)
    (client : pb.RuntimeServiceClient ρ) (ID : String) (hID : ID ≠ "") :
    (StopPodSandbox client ID).calls = [Call.StopPodSandbox ⟨some ID⟩] ∧
    (RemovePodSandbox client ID).calls = [Call.RemovePodSandbox ⟨some ID⟩] ∧
    (PodSandboxStatus fmtTime client ID).calls = [Call.PodSandboxStatus ⟨some ID⟩] := by
  refine ⟨?_, ?_, ?_⟩
  · unfold StopPodSandbox
    rw [if_neg hID]
    cases client.StopPodSandbox ⟨some ID⟩ <;> rfl
  · unfold RemovePodSandbox
    rw [if_neg hID]
    cases client.RemovePodSandbox ⟨some ID⟩ <;> rfl
  · unfold PodSandboxStatus
    rw [if_neg hID]
    cases client.PodSandboxStatus ⟨some ID⟩ <;> rfl

/-- Witness of C4 at the identifier `abc`, on a service that accepts the stop
and remove calls and fails the status call. -/
theorem nonempty_identifier_one_call_witness :
    "abc" ≠ "" ∧
    (StopPodSandbox (standIn (.error "down") (.error "down")) "abc").calls
      = [Call.StopPodSandbox ⟨some "abc"⟩] ∧
    (RemovePodSandbox (standIn (.error "down") (.error "down")) "abc").calls
      = [Call.RemovePodSandbox ⟨some "abc"⟩] ∧
    (PodSandboxStatus epochText (standIn (.error "down") (.error "down")) "abc").calls
      = [Call.PodSandboxStatus ⟨some "abc"⟩] :=
  ⟨by decide, nonempty_identifier_one_call epochText _ "abc" (by decide)⟩

/-! ## Statement sequences -/

namespace Block

theorem seq_cons (b : Block) (bs : List Block) : seq (b :: bs) = andThen b (seq bs) := rfl

theorem andThen_of_done {a : Block} (b : Block) (h : a.done = true) :
    andThen a b = ⟨a.out ++ b.out, b.done⟩ := by
  simp [andThen, h]

theorem print_andThen (s : String) (b : Block) : andThen (print s) b = ⟨s :: b.out, b.done⟩ := by
  simp [andThen, print]

theorem nop_andThen (b : Block) : andThen nop b = b := by
  simp [andThen, nop]

/-- A loop whose iterations each print one text and never fail prints the
texts in order and runs to its end. -/
theorem seq_map_print {α : Type} (f : α → String) (l : List α) :
    seq (l.map fun a => print (f a)) = ⟨l.map f, true⟩ := by
  induction l with
  | nil => rfl
  | cons a l ih => simp [seq_cons, ih, print_andThen]

end Block

/-- In quiet mode a summary with an identifier prints the identifier alone. -/
theorem podBlock_quiet (fmtTime : Int → String) (pod : pb.PodSandbox) (id : String)
    (h : pod.Id = some id) : podBlock fmtTime true pod = Block.print (id ++ "\n") := by
  simp [podBlock, h, Block.deref]

/-- The quiet loop over summaries that all have an identifier. -/
theorem seq_podBlock_quiet (fmtTime : Int → String) (items : List pb.PodSandbox)
    (hid : ∀ pod ∈ items, pod.Id.isSome = true) :
    Block.seq (items.map (podBlock fmtTime true))
      = ⟨items.map (fun pod => pod.Id.getD "" ++ "\n"), true⟩ := by
  induction items with
  | nil => rfl
  | cons pod items ih =>
    obtain ⟨id, hp⟩ := Option.isSome_iff_exists.mp (hid pod (List.mem_cons_self _ _))
    have ih := ih (fun q hq => hid q (List.mem_cons_of_mem _ hq))
    simp [Block.seq_cons, podBlock_quiet fmtTime pod id hp, ih, Block.print_andThen, hp]

/-! ## Quiet listing -/

/-- C5: when the list call answers with summaries that all carry an identifier
(their other fields present or absent), `ListPodSandboxes` with `quiet = true`
prints exactly one text per summary, the identifier followed by a newline, in
the order the service supplied, prints nothing else and returns without error;
for the two summaries `s1`, `s2` the output is the two lines `s1`, `s2`. -/
theorem list_quiet_prints_identifiers {ρ : Type} (fmtTime : Int → String)
    (client : pb.RuntimeServiceClient ρ) (r : pb.ListPodSandboxResponse)
    (hr : client.ListPodSandbox {} = .ok r)
    (hid : ∀ pod ∈ r.Items, pod.Id.isSome = true) :
    (ListPodSandboxes fmtTime client true).stdout
        = r.Items.map (fun pod => pod.Id.getD "" ++ "\n") ∧
    (ListPodSandboxes fmtTime client true).exit = .ok ∧
    (∀ p1 p2 : pb.PodSandbox, r.Items = [p1, p2] → p1.Id = some "s1" → p2.Id = some "s2" →
      (ListPodSandboxes fmtTime client true).stdout = ["s1\n", "s2\n"] ∧
      (ListPodSandboxes fmtTime client true).text = "s1\ns2\n") := by
  have hrun : ListPodSandboxes fmtTime client true
      = ⟨[.ListPodSandbox {}], r.Items.map (fun pod => pod.Id.getD "" ++ "\n"), .ok⟩ := by
    simp [ListPodSandboxes, hr, seq_podBlock_quiet fmtTime r.Items hid]
  refine ⟨by rw [hrun], by rw [hrun], ?_⟩
  intro p1 p2 hitems h1 h2
  have hout : (ListPodSandboxes fmtTime client true).stdout = ["s1\n", "s2\n"] := by
    rw [hrun, hitems]
    simp [h1, h2]
  refine ⟨hout, ?_⟩
  unfold Run.text
  rw [hout]
  decide

/-- Witness of C5: two summaries `s1` and `s2`, the first with a state and
labels, the second with nothing but its identifier. -/
theorem list_quiet_prints_identifiers_witness :
    (ListPodSandboxes epochText
      (standIn (.error "unused")
        (.ok ⟨[⟨some "s1", none, some .READY, some 7, some [("k", "v")], none⟩,
               ⟨some "s2", none, none, none, none, none⟩]⟩)) true).stdout = ["s1\n", "s2\n"] :=
  ((list_quiet_prints_identifiers epochText
      (standIn (.error "unused")
        (.ok ⟨[⟨some "s1", none, some .READY, some 7, some [("k", "v")], none⟩,
               ⟨some "s2", none, none, none, none, none⟩]⟩))
      ⟨[⟨some "s1", none, some .READY, some 7, some [("k", "v")], none⟩,
        ⟨some "s2", none, none, none, none, none⟩]⟩ rfl (by decide)).2.2
      _ _ rfl rfl rfl).1

/-! ## Error propagation -/

/-- C8: when the remote call an operation issued is answered with the error
`e`, the run of the operation is: that one call and no other, nothing printed,
and `e` itself returned; and when loading the config fails with `e`,
`RunPodSandbox` returns `e` without a remote call and without output. -/
theorem remote_error_returned {ρ : Type} (fmtTime : Int → String)
    (load : String → Except GoError (pb.PodSandboxConfig ρ))
    (client : pb.RuntimeServiceClient ρ) (e : GoError) :
    (∀ path name req, Call.RunPodSandbox req ∈ (RunPodSandbox load client path name).calls →
      client.RunPodSandbox req = .error e →
      RunPodSandbox load client path name = ⟨[.RunPodSandbox req], [], .err e⟩) ∧
    (∀ ID req, Call.StopPodSandbox req ∈ (StopPodSandbox client ID).calls →
      client.StopPodSandbox req = .error e →
      StopPodSandbox client ID = ⟨[.StopPodSandbox req], [], .err e⟩) ∧
    (∀ ID req, Call.RemovePodSandbox req ∈ (RemovePodSandbox client ID).calls →
      client.RemovePodSandbox req = .error e →
      RemovePodSandbox client ID = ⟨[.RemovePodSandbox req], [], .err e⟩) ∧
    (∀ ID req, Call.PodSandboxStatus req ∈ (PodSandboxStatus fmtTime client ID).calls →
      client.PodSandboxStatus req = .error e →
      PodSandboxStatus fmtTime client ID = ⟨[.PodSandboxStatus req], [], .err e⟩) ∧
    (∀ quiet req, Call.ListPodSandbox req ∈ (ListPodSandboxes fmtTime client quiet).calls →
      client.ListPodSandbox req = .error e →
      ListPodSandboxes fmtTime client quiet = ⟨[.ListPodSandbox req], [], .err e⟩) ∧
    (∀ path name, load path = .error e →
      RunPodSandbox load client path name = ⟨[], [], .err e⟩) := by
  refine ⟨?_, ?_, ?_, ?_, ?_, ?_⟩
  · intro path name req hmem herr
    unfold RunPodSandbox at hmem ⊢
    cases hl : load path with
    | error err => simp [hl] at hmem
    | ok config =>
      simp only [hl] at hmem ⊢
      cases hc : (if name ≠ "" then setMetadataName config name else some config) with
      | none => simp [hc] at hmem
      | some config2 =>
        simp only [hc] at hmem ⊢
        cases hcall : client.RunPodSandbox ⟨some config2⟩ with
        | error err =>
          simp only [hcall, List.mem_singleton, Call.RunPodSandbox.injEq] at hmem ⊢
          subst hmem
          rw [hcall] at herr
          cases herr
          rfl
        | ok r =>
          have hreq : req = ⟨some config2⟩ := by
            simp only [hcall] at hmem
            cases hid : r.PodSandboxId <;> simp [hid] at hmem <;> exact hmem
          rw [hreq, hcall] at herr
          cases herr
  · intro ID req hmem herr
    unfold StopPodSandbox at hmem ⊢
    by_cases hID : ID = ""
    · simp [hID] at hmem
    · simp only [if_neg hID] at hmem ⊢
      cases hcall : client.StopPodSandbox ⟨some ID⟩ with
      | error err =>
        simp only [hcall, List.mem_singleton, Call.StopPodSandbox.injEq] at hmem ⊢
        subst hmem
        rw [hcall] at herr
        cases herr
        rfl
      | ok r =>
        simp only [hcall, List.mem_singleton, Call.StopPodSandbox.injEq] at hmem
        rw [hmem, hcall] at herr
        cases herr
  · intro ID req hmem herr
    unfold RemovePodSandbox at hmem ⊢
    by_cases hID : ID = ""
    · simp [hID] at hmem
    · simp only [if_neg hID] at hmem ⊢
      cases hcall : client.RemovePodSandbox ⟨some ID⟩ with
      | error err =>
        simp only [hcall, List.mem_singleton, Call.RemovePodSandbox.injEq] at hmem ⊢
        subst hmem
        rw [hcall] at herr
        cases herr
        rfl
      | ok r =>
        simp only [hcall, List.mem_singleton, Call.RemovePodSandbox.injEq] at hmem
        rw [hmem, hcall] at herr
        cases herr
  · intro ID req hmem herr
    unfold PodSandboxStatus at hmem ⊢
    by_cases hID : ID = ""
    · simp [hID] at hmem
    · simp only [if_neg hID] at hmem ⊢
      cases hcall : client.PodSandboxStatus ⟨some ID⟩ with
      | error err =>
        simp only [hcall, List.mem_singleton, Call.PodSandboxStatus.injEq] at hmem ⊢
        subst hmem
        rw [hcall] at herr
        cases herr
        rfl
      | ok r =>
        simp only [hcall, List.mem_singleton, Call.PodSandboxStatus.injEq] at hmem
        rw [hmem, hcall] at herr
        cases herr
  · intro quiet req hmem herr
    unfold ListPodSandboxes at hmem ⊢
    cases hcall : client.ListPodSandbox {} with
    | error err =>
      have hreq : req = {} := rfl
      rw [hreq, hcall] at herr
      cases herr
      rfl
    | ok r =>
      have hreq : req = {} := rfl
      rw [hreq, hcall] at herr
      cases herr
  · intro path name hl
    simp [RunPodSandbox, hl]

/-- Witness of C8: a service that fails every call with `boom`, and a config
file that is missing. -/
theorem remote_error_returned_witness :
    RunPodSandbox (loadFrom ⟨some ⟨some "A", none, none, none⟩, ()⟩) (failing "boom")
        "config.json" "B"
      = ⟨[.RunPodSandbox ⟨some ⟨some ⟨some "B", none, none, none⟩, ()⟩⟩], [], .err "boom"⟩ ∧
    StopPodSandbox (failing "boom") "abc" = ⟨[.StopPodSandbox ⟨some "abc"⟩], [], .err "boom"⟩ ∧
    RemovePodSandbox (failing "boom") "abc"
      = ⟨[.RemovePodSandbox ⟨some "abc"⟩], [], .err "boom"⟩ ∧
    PodSandboxStatus epochText (failing "boom") "abc"
      = ⟨[.PodSandboxStatus ⟨some "abc"⟩], [], .err "boom"⟩ ∧
    ListPodSandboxes epochText (failing "boom") false
      = ⟨[.ListPodSandbox {}], [], .err "boom"⟩ ∧
    RunPodSandbox (loadFrom ⟨some ⟨some "A", none, none, none⟩, ()⟩) (failing "boom")
        "missing.json" "B"
      = ⟨[], [], .err "config at missing.json not found"⟩ :=
  ⟨(remote_error_returned epochText (loadFrom ⟨some ⟨some "A", none, none, none⟩, ()⟩)
      (failing "boom") "boom").1 "config.json" "B" _ (by decide) rfl,
   (remote_error_returned epochText (loadFrom ⟨some ⟨some "A", none, none, none⟩, ()⟩)
      (failing "boom") "boom").2.1 "abc" _ (by decide) rfl,
   (remote_error_returned epochText (loadFrom ⟨some ⟨some "A", none, none, none⟩, ()⟩)
      (failing "boom") "boom").2.2.1 "abc" _ (by decide) rfl,
   (remote_error_returned epochText (loadFrom ⟨some ⟨some "A", none, none, none⟩, ()⟩)
      (failing "boom") "boom").2.2.2.1 "abc" _ (by decide) rfl,
   (remote_error_returned epochText (loadFrom ⟨some ⟨some "A", none, none, none⟩, ()⟩)
      (failing "boom") "boom").2.2.2.2.1 false _ (by decide) rfl,
   (remote_error_returned epochText (loadFrom ⟨some ⟨some "A", none, none, none⟩, ()⟩)
      (failing "boom") "config at missing.json not found").2.2.2.2.2 "missing.json" "B" rfl⟩

/-! ## Shape of the rendered output -/

namespace Block

theorem seq_append (l₁ l₂ : List Block) : seq (l₁ ++ l₂) = andThen (seq l₁) (seq l₂) := by
  induction l₁ with
  | nil => simp [seq, nop_andThen]
  | cons b l ih =>
    simp only [List.cons_append, seq_cons, ih]
    cases hb : b.done <;> cases hl : (seq l).done <;> simp [andThen, hb, hl]

theorem mem_out_andThen {a b : Block} {c : String} (h : c ∈ (andThen a b).out) :
    c ∈ a.out ∨ c ∈ b.out := by
  unfold andThen at h
  split at h
  · simpa using h
  · exact Or.inl h

theorem mem_out_seq {l : List Block} {c : String} (h : c ∈ (seq l).out) :
    ∃ b ∈ l, c ∈ b.out := by
  induction l with
  | nil => simp [seq, nop] at h
  | cons b l ih =>
    rcases mem_out_andThen h with h | h
    · exact ⟨b, List.mem_cons_self _ _, h⟩
    · obtain ⟨b2, hb2, hc⟩ := ih h
      exact ⟨b2, List.mem_cons_of_mem _ hb2, hc⟩

theorem mem_out_whenSome {α : Type} {p : Option α} {k : α → Block} {c : String}
    (h : c ∈ (whenSome p k).out) : ∃ a, p = some a ∧ c ∈ (k a).out := by
  cases p with
  | none => simp [whenSome, nop] at h
  | some a => exact ⟨a, rfl, h⟩

theorem mem_out_deref {α : Type} {p : Option α} {k : α → Block} {c : String}
    (h : c ∈ (deref p k).out) : ∃ a, p = some a ∧ c ∈ (k a).out := by
  cases p with
  | none => simp [deref, fault] at h
  | some a => exact ⟨a, rfl, h⟩

theorem mem_out_print {s c : String} (h : c ∈ (print s).out) : c = s := by
  simpa [print] using h

end Block

/-- Two labels that both start the same text are comparable as texts. -/
theorem IsLine.comparable {l₁ l₂ c : String} (h₁ : IsLine l₁ c) (h₂ : IsLine l₂ c) :
    l₁.data <+: l₂.data ∨ l₂.data <+: l₁.data :=
  List.prefix_or_prefix_of_prefix h₁ h₂

theorem isLine_append (l v : String) : IsLine l (l ++ v) := by
  simp [IsLine]

/-- The metadata block of the status rendering prints the lines of rule 2. -/
theorem statusHead_eq (status : pb.PodSandboxStatus) (id : String) (h : status.Id = some id) :
    Block.seq (statusHead status)
      = ⟨("ID: " ++ id ++ "\n") :: specMetadataLines status.Metadata, true⟩ := by
  unfold statusHead
  rw [h]
  cases status.Metadata with
  | none => rfl
  | some md =>
    obtain ⟨n, u, ns, a⟩ := md
    cases n <;> cases u <;> cases ns <;> cases a <;> rfl

/-- The metadata block of the list rendering prints the lines of rule 2. -/
theorem podHead_eq (pod : pb.PodSandbox) (id : String) (h : pod.Id = some id) :
    Block.seq (podHead pod)
      = ⟨("ID: " ++ id ++ "\n") :: specMetadataLines pod.Metadata, true⟩ := by
  unfold podHead
  rw [h]
  cases pod.Metadata with
  | none => rfl
  | some md =>
    obtain ⟨n, u, ns, a⟩ := md
    cases n <;> cases u <;> cases ns <;> cases a <;> rfl

/-- A text that starts with one of the labels `ls` starts with none of the
labels `ls'` when no label of the one list is comparable to one of the other. -/
theorem Labelled.excludes {ls ls' : List String} {c : String} (h : Labelled ls c)
    (hd : ∀ l ∈ ls, ∀ l' ∈ ls', ¬ (l.data <+: l'.data ∨ l'.data <+: l.data)) :
    ¬ Labelled ls' c := by
  rintro ⟨l', hl', hc'⟩
  obtain ⟨l, hl, hc⟩ := h
  exact hd l hl l' hl' (hc.comparable hc')

theorem isMetadataLine_iff (c : String) :
    IsMetadataLine c ↔ Labelled ["Name: ", "UID: ", "Namespace: ", "Attempt: "] c := by
  simp [IsMetadataLine, Labelled]

/-- The labels of the lines printed after the metadata block by the status
rendering (lines 237-249). -/
theorem statusDetail_lines (fmtTime : Int → String) (status : pb.PodSandboxStatus) (c : String)
    (h : c ∈ (Block.seq (statusDetail fmtTime status)).out) :
    Labelled ["Status: ", "Created: ", "Network namespace: ", "IP Address: "] c := by
  obtain ⟨b, hb, hc⟩ := Block.mem_out_seq h
  simp only [statusDetail, List.mem_cons, List.mem_singleton, List.not_mem_nil, or_false] at hb
  rcases hb with rfl | rfl | rfl | rfl
  · obtain ⟨_, _, hc⟩ := Block.mem_out_whenSome hc
    rw [Block.mem_out_print hc, String.append_assoc]
    exact ⟨"Status: ", by simp, isLine_append _ _⟩
  · obtain ⟨_, _, hc⟩ := Block.mem_out_whenSome hc
    rw [Block.mem_out_print hc, String.append_assoc]
    exact ⟨"Created: ", by simp, isLine_append _ _⟩
  · obtain ⟨_, _, hc⟩ := Block.mem_out_whenSome hc
    obtain ⟨_, _, hc⟩ := Block.mem_out_deref hc
    obtain ⟨_, _, hc⟩ := Block.mem_out_deref hc
    rw [Block.mem_out_print hc, String.append_assoc]
    exact ⟨"Network namespace: ", by simp, isLine_append _ _⟩
  · obtain ⟨_, _, hc⟩ := Block.mem_out_whenSome hc
    obtain ⟨_, _, hc⟩ := Block.mem_out_deref hc
    rw [Block.mem_out_print hc, String.append_assoc]
    exact ⟨"IP Address: ", by simp, isLine_append _ _⟩

/-- The labels of the lines printed after the metadata block by the list
rendering (lines 292-294). -/
theorem podDetail_lines (fmtTime : Int → String) (pod : pb.PodSandbox) (c : String)
    (h : c ∈ (Block.seq (podDetail fmtTime pod)).out) :
    Labelled ["Status: ", "Created: ", "Network namespace: ", "IP Address: "] c := by
  obtain ⟨b, hb, hc⟩ := Block.mem_out_seq h
  simp only [podDetail, List.mem_cons, List.mem_singleton, List.not_mem_nil, or_false] at hb
  rcases hb with rfl | rfl
  · rw [Block.mem_out_print hc, String.append_assoc]
    exact ⟨"Status: ", by simp, isLine_append _ _⟩
  · obtain ⟨_, _, hc⟩ := Block.mem_out_deref hc
    rw [Block.mem_out_print hc, String.append_assoc]
    exact ⟨"Created: ", by simp, isLine_append _ _⟩

/-- The guarded statement of one mapping prints the section of the mapping. -/
theorem mapBlock_eq (header : String) (m : Option (List (String × String))) :
    (Block.whenSome m fun es =>
      Block.seq (Block.print header ::
        es.map fun kv => Block.print ("\t" ++ kv.1 ++ " -> " ++ kv.2 ++ "\n")))
      = ⟨specMapSection header m, true⟩ := by
  cases m with
  | none => rfl
  | some es =>
    simp only [Block.whenSome, Block.seq_cons, Block.seq_map_print, Block.print_andThen,
      specMapSection]

/-- The labels and annotations statements of the status rendering print the
section of each mapping that is present, and never fail. -/
theorem statusMaps_eq (status : pb.PodSandboxStatus) :
    Block.seq (statusMaps status)
      = ⟨specMapSection "Labels:\n" status.Labels
          ++ specMapSection "Annotations:\n" status.Annotations, true⟩ := by
  unfold statusMaps
  rw [Block.seq_cons, Block.seq_cons, mapBlock_eq, mapBlock_eq]
  simp [Block.andThen, Block.seq, Block.nop]

/-- The labels and annotations statements of the list rendering print the
section of each mapping that is present, and never fail. -/
theorem podMaps_eq (pod : pb.PodSandbox) :
    Block.seq (podMaps pod)
      = ⟨specMapSection "Labels:\n" pod.Labels
          ++ specMapSection "Annotations:\n" pod.Annotations, true⟩ := by
  unfold podMaps
  rw [Block.seq_cons, Block.seq_cons, mapBlock_eq, mapBlock_eq]
  simp [Block.andThen, Block.seq, Block.nop]

/-- A line of a mapping section is its header or a tab-indented entry. -/
theorem specMapSection_lines (header : String) (m : Option (List (String × String)))
    (c : String) (h : c ∈ specMapSection header m) : Labelled [header, "\t"] c := by
  cases m with
  | none => simp [specMapSection] at h
  | some es =>
    simp only [specMapSection, List.mem_cons, List.mem_map] at h
    rcases h with rfl | ⟨kv, _, rfl⟩
    · exact ⟨c, by simp, by simp [IsLine]⟩
    · refine ⟨"\t", by simp, ?_⟩
      rw [String.append_assoc, String.append_assoc, String.append_assoc]
      exact isLine_append _ _

/-- The labels of the lines of the two mapping sections. -/
theorem mapSections_lines (labels annotations : Option (List (String × String))) (c : String)
    (h : c ∈ specMapSection "Labels:\n" labels ++ specMapSection "Annotations:\n" annotations) :
    Labelled ["Labels:\n", "Annotations:\n", "\t"] c := by
  rcases List.mem_append.mp h with h | h
  · obtain ⟨l, hl, hc⟩ := specMapSection_lines _ _ _ h
    refine ⟨l, ?_, hc⟩
    simp only [List.mem_cons, List.mem_singleton, List.not_mem_nil, or_false] at hl ⊢
    rcases hl with rfl | rfl
    · exact Or.inl rfl
    · exact Or.inr (Or.inr rfl)
  · obtain ⟨l, hl, hc⟩ := specMapSection_lines _ _ _ h
    refine ⟨l, ?_, hc⟩
    simp only [List.mem_cons, List.mem_singleton, List.not_mem_nil, or_false] at hl ⊢
    rcases hl with rfl | rfl
    · exact Or.inr (Or.inl rfl)
    · exact Or.inr (Or.inr rfl)

/-- A rendering made of a head and a mapping part that never fail, around a
middle part that may: the mapping part is printed iff the middle part ran to
its end. -/
theorem Block.seq_three (H D M : List Block) (h m : List String)
    (hH : Block.seq H = ⟨h, true⟩) (hM : Block.seq M = ⟨m, true⟩) :
    Block.seq (H ++ D ++ M)
      = if (Block.seq D).done = true then ⟨h ++ (Block.seq D).out ++ m, true⟩
        else ⟨h ++ (Block.seq D).out, false⟩ := by
  rw [Block.seq_append, Block.seq_append, hH, hM]
  cases hd : (Block.seq D).done <;> simp [Block.andThen, hd]

theorem labelled_mono {ls ls' : List String} {c : String} (h : Labelled ls c)
    (hsub : ∀ l ∈ ls, l ∈ ls') : Labelled ls' c := by
  obtain ⟨l, hl, hc⟩ := h
  exact ⟨l, hsub l hl, hc⟩

/-- The status rendering of a status with an identifier: the identifier line,
the metadata lines of rule 2, then lines with later labels only. -/
theorem statusBlock_split (fmtTime : Int → String) (r : pb.PodSandboxStatusResponse)
    (status : pb.PodSandboxStatus) (id : String)
    (hs : r.Status = some status) (hid : status.Id = some id) :
    ∃ rest d, statusBlock fmtTime r
        = ⟨("ID: " ++ id ++ "\n") :: specMetadataLines status.Metadata ++ rest, d⟩ ∧
      ∀ c ∈ rest, Labelled tailLabels c := by
  unfold statusBlock
  rw [hs]
  simp only [Block.deref]
  rw [Block.seq_three _ _ _ _ _ (statusHead_eq status id hid) (statusMaps_eq status)]
  cases hd : (Block.seq (statusDetail fmtTime status)).done
  · refine ⟨(Block.seq (statusDetail fmtTime status)).out, false, by simp, ?_⟩
    intro c hc
    exact labelled_mono (statusDetail_lines fmtTime status c hc) (by decide)
  · refine ⟨(Block.seq (statusDetail fmtTime status)).out
        ++ (specMapSection "Labels:\n" status.Labels
          ++ specMapSection "Annotations:\n" status.Annotations), true, by simp, ?_⟩
    intro c hc
    rcases List.mem_append.mp hc with hc | hc
    · exact labelled_mono (statusDetail_lines fmtTime status c hc) (by decide)
    · exact labelled_mono (mapSections_lines _ _ c hc) (by decide)

/-- The list rendering of a summary with an identifier: the identifier line,
the metadata lines of rule 2, then lines with later labels only. -/
theorem podBlock_split (fmtTime : Int → String) (pod : pb.PodSandbox) (id : String)
    (hid : pod.Id = some id) :
    ∃ rest d, podBlock fmtTime false pod
        = ⟨("ID: " ++ id ++ "\n") :: specMetadataLines pod.Metadata ++ rest, d⟩ ∧
      ∀ c ∈ rest, Labelled tailLabels c := by
  unfold podBlock
  simp only [Bool.false_eq_true, if_false]
  rw [Block.seq_three _ _ _ _ _ (podHead_eq pod id hid) (podMaps_eq pod)]
  cases hd : (Block.seq (podDetail fmtTime pod)).done
  · refine ⟨(Block.seq (podDetail fmtTime pod)).out, false, by simp, ?_⟩
    intro c hc
    exact labelled_mono (podDetail_lines fmtTime pod c hc) (by decide)
  · refine ⟨(Block.seq (podDetail fmtTime pod)).out
        ++ (specMapSection "Labels:\n" pod.Labels
          ++ specMapSection "Annotations:\n" pod.Annotations), true, by simp, ?_⟩
    intro c hc
    rcases List.mem_append.mp hc with hc | hc
    · exact labelled_mono (podDetail_lines fmtTime pod c hc) (by decide)
    · exact labelled_mono (mapSections_lines _ _ c hc) (by decide)

/-- No line with a later label is a metadata line. -/
theorem not_metadata_of_tail {c : String} (h : Labelled tailLabels c) : ¬ IsMetadataLine c := by
  rw [isMetadataLine_iff]
  exact h.excludes (by decide)

/-- The identifier line is not a metadata line. -/
theorem not_metadata_idLine (id : String) : ¬ IsMetadataLine ("ID: " ++ id ++ "\n") := by
  rw [isMetadataLine_iff, String.append_assoc]
  have h : Labelled ["ID: "] ("ID: " ++ (id ++ "\n")) := ⟨"ID: ", by simp, isLine_append _ _⟩
  exact h.excludes (by decide)

/-- The non-quiet loop over summaries that all have an identifier: the
summaries are rendered in order, each as identifier line, metadata lines and
later lines, up to the summary in which the run stops. -/
theorem seq_podBlock_split (fmtTime : Int → String) (items : List pb.PodSandbox)
    (hid : ∀ pod ∈ items, pod.Id.isSome = true) :
    ∃ rests : List (List String), rests.length ≤ items.length ∧
      ((Block.seq (items.map (podBlock fmtTime false))).done = true →
        rests.length = items.length) ∧
      (Block.seq (items.map (podBlock fmtTime false))).out
        = (List.zipWith (fun pod rest =>
            ("ID: " ++ pod.Id.getD "" ++ "\n") :: specMetadataLines pod.Metadata ++ rest)
            items rests).flatten ∧
      ∀ rest ∈ rests, ∀ c ∈ rest, ¬ IsMetadataLine c := by
  induction items with
  | nil => exact ⟨[], by simp, by simp, by simp [Block.seq, Block.nop], by simp⟩
  | cons pod items ih =>
    obtain ⟨id, hp⟩ := Option.isSome_iff_exists.mp (hid pod (List.mem_cons_self _ _))
    obtain ⟨rests, hlen, hdone, hout, hrest⟩ := ih (fun q hq => hid q (List.mem_cons_of_mem _ hq))
    obtain ⟨rest, d, hb, hlab⟩ := podBlock_split fmtTime pod id hp
    simp only [List.map_cons, Block.seq_cons, hb]
    cases d with
    | true =>
      refine ⟨rest :: rests, by simpa using hlen, ?_, ?_, ?_⟩
      · intro h
        simp only [Block.andThen, if_true] at h
        simpa using hdone h
      · simp [Block.andThen, hout, hp]
      · intro x hx c hc
        rcases List.mem_cons.mp hx with rfl | hx
        · exact not_metadata_of_tail (hlab c hc)
        · exact hrest x hx c hc
    | false =>
      refine ⟨[rest], by simp, ?_, ?_, ?_⟩
      · intro h
        simp [Block.andThen] at h
      · simp [Block.andThen, hp]
      · intro x hx c hc
        rw [List.mem_singleton.mp hx] at hc
        exact not_metadata_of_tail (hlab c hc)

/-! ## Metadata block -/

/-- Where the metadata rule does hold: in the output of `PodSandboxStatus` for a
response whose status carries its identifier, the identifier line comes first,
directly followed by the metadata lines of rule 2 (none when the metadata block
is absent, else one line per present field, in the order Name, UID, Namespace,
Attempt), and no other line of the output is a Name, UID, Namespace or Attempt
line. The output of `ListPodSandboxes` with `quiet = false`, for summaries that
carry their identifiers, is the concatenation, in order, of such renderings of
the summaries the loop reaches: of all of them when the run returns without
failing. -/
theorem metadata_block_rule {ρ : Type} (fmtTime : Int → String)
    (client : pb.RuntimeServiceClient ρ) :
    (∀ ID r status id, ID ≠ "" → client.PodSandboxStatus ⟨some ID⟩ = .ok r →
      r.Status = some status → status.Id = some id →
      ¬ IsMetadataLine ("ID: " ++ id ++ "\n") ∧
      ∃ rest, (PodSandboxStatus fmtTime client ID).stdout
          = ("ID: " ++ id ++ "\n") :: specMetadataLines status.Metadata ++ rest ∧
        ∀ c ∈ rest, ¬ IsMetadataLine c) ∧
    (∀ r, client.ListPodSandbox {} = .ok r → (∀ pod ∈ r.Items, pod.Id.isSome = true) →
      (∀ pod ∈ r.Items, ¬ IsMetadataLine ("ID: " ++ pod.Id.getD "" ++ "\n")) ∧
      ∃ rests : List (List String), rests.length ≤ r.Items.length ∧
        ((ListPodSandboxes fmtTime client false).exit = .ok → rests.length = r.Items.length) ∧
        (ListPodSandboxes fmtTime client false).stdout
          = (List.zipWith (fun pod rest =>
              ("ID: " ++ pod.Id.getD "" ++ "\n") :: specMetadataLines pod.Metadata ++ rest)
              r.Items rests).flatten ∧
        ∀ rest ∈ rests, ∀ c ∈ rest, ¬ IsMetadataLine c) := by
  constructor
  · intro ID r status id hID hr hs hid
    refine ⟨not_metadata_idLine id, ?_⟩
    obtain ⟨rest, d, hb, hlab⟩ := statusBlock_split fmtTime r status id hs hid
    refine ⟨rest, ?_, fun c hc => not_metadata_of_tail (hlab c hc)⟩
    simp [PodSandboxStatus, hID, hr, hb]
  · intro r hr hid
    refine ⟨fun pod _ => not_metadata_idLine _, ?_⟩
    obtain ⟨rests, hlen, hdone, hout, hrest⟩ := seq_podBlock_split fmtTime r.Items hid
    refine ⟨rests, hlen, ?_, ?_, hrest⟩
    · intro hexit
      apply hdone
      simp only [ListPodSandboxes, hr] at hexit
      cases hd : (Block.seq (r.Items.map (podBlock fmtTime false))).done
      · simp [hd] at hexit
      · rfl
    · simp [ListPodSandboxes, hr, hout]

/-- The metadata rule at concrete inputs: the status `sampleStatus`, whose
metadata block has a name, a namespace and an attempt count but no UID, and the
two summaries `sampleItems`. -/
theorem metadata_block_rule_witness :
    (∃ rest, (PodSandboxStatus epochText
        (standIn (.ok ⟨some sampleStatus⟩) (.ok ⟨sampleItems⟩)) "s1").stdout
        = "ID: s1\n" :: ["Name: web\n", "Namespace: prod\n", "Attempt: 2\n"] ++ rest ∧
      ∀ c ∈ rest, ¬ IsMetadataLine c) ∧
    (∃ rests : List (List String),
      (ListPodSandboxes epochText
        (standIn (.ok ⟨some sampleStatus⟩) (.ok ⟨sampleItems⟩)) false).stdout
        = (List.zipWith (fun pod rest =>
            ("ID: " ++ pod.Id.getD "" ++ "\n") :: specMetadataLines pod.Metadata ++ rest)
            sampleItems rests).flatten ∧
      ∀ rest ∈ rests, ∀ c ∈ rest, ¬ IsMetadataLine c) :=
  ⟨((metadata_block_rule epochText (standIn (.ok ⟨some sampleStatus⟩) (.ok ⟨sampleItems⟩))).1
      "s1" ⟨some sampleStatus⟩ sampleStatus "s1" (by decide) rfl rfl rfl).2,
    by
      obtain ⟨rests, _, _, hout, hrest⟩ :=
        ((metadata_block_rule epochText
          (standIn (.ok ⟨some sampleStatus⟩) (.ok ⟨sampleItems⟩))).2
          ⟨sampleItems⟩ rfl (by decide)).2
      exact ⟨rests, hout, hrest⟩⟩

/-! ## Status with identifier and state only -/

/-- The lines 237-249 for a status in state READY without creation time: the
state line, then at most the network namespace and IP address lines. -/
theorem statusDetail_ready (fmtTime : Int → String) (status : pb.PodSandboxStatus)
    (hstate : status.State = some .READY) (hcr : status.CreatedAt = none) :
    ∃ X d, Block.seq (statusDetail fmtTime status) = ⟨"Status: READY\n" :: X, d⟩ ∧
      (∀ c ∈ X, Labelled ["Network namespace: ", "IP Address: "] c) ∧
      (status.Linux = none → status.Network = none → X = [] ∧ d = true) := by
  unfold statusDetail
  rw [hstate, hcr]
  simp only [Block.seq_cons, Block.whenSome, Block.print_andThen, Block.nop_andThen, fmtState,
    pb.PodSandboxState.name]
  refine ⟨_, _, rfl, ?_, ?_⟩
  · intro c hc
    rcases Block.mem_out_andThen hc with hc | hc
    · obtain ⟨_, _, hc⟩ := Block.mem_out_whenSome hc
      obtain ⟨_, _, hc⟩ := Block.mem_out_deref hc
      obtain ⟨_, _, hc⟩ := Block.mem_out_deref hc
      rw [Block.mem_out_print hc, String.append_assoc]
      exact ⟨"Network namespace: ", by simp, isLine_append _ _⟩
    · rcases Block.mem_out_andThen hc with hc | hc
      · obtain ⟨_, _, hc⟩ := Block.mem_out_whenSome hc
        obtain ⟨_, _, hc⟩ := Block.mem_out_deref hc
        rw [Block.mem_out_print hc, String.append_assoc]
        exact ⟨"IP Address: ", by simp, isLine_append _ _⟩
      · simp [Block.seq, Block.nop] at hc
  · intro hl hn
    rw [hl, hn]
    exact ⟨rfl, rfl⟩

/-- C7: for a status that carries its identifier and the state READY and has
no metadata block, no creation time and no labels, the output of
`PodSandboxStatus` starts with the identifier line and the line
`Status: READY`, and no line of the output is a Name, UID, Namespace, Attempt,
Created or Labels line; when the Linux block, the network block and the
annotations are absent too, the output is exactly those two lines and the
operation returns without error. -/
theorem status_identifier_and_state_only {ρ : Type} (fmtTime : Int → String)
    (client : pb.RuntimeServiceClient ρ) (ID : String) (r : pb.PodSandboxStatusResponse)
    (status : pb.PodSandboxStatus) (id : String)
    (hID : ID ≠ "") (hr : client.PodSandboxStatus ⟨some ID⟩ = .ok r)
    (hs : r.Status = some status) (hid : status.Id = some id)
    (hstate : status.State = some .READY) (hmd : status.Metadata = none)
    (hcr : status.CreatedAt = none) (hlab : status.Labels = none) :
    (∃ rest, (PodSandboxStatus fmtTime client ID).stdout
        = ["ID: " ++ id ++ "\n", "Status: READY\n"] ++ rest) ∧
    (∀ c ∈ (PodSandboxStatus fmtTime client ID).stdout,
      ¬ IsMetadataLine c ∧ ¬ IsLine "Created: " c ∧ ¬ IsLine "Labels:" c) ∧
    (status.Linux = none → status.Network = none → status.Annotations = none →
      PodSandboxStatus fmtTime client ID
        = ⟨[.PodSandboxStatus ⟨some ID⟩], ["ID: " ++ id ++ "\n", "Status: READY\n"], .ok⟩) := by
  obtain ⟨X, d, hD, hX, hnone⟩ := statusDetail_ready fmtTime status hstate hcr
  have hhead := statusHead_eq status id hid
  rw [hmd] at hhead
  have hblock : statusBlock fmtTime r
      = if d = true then ⟨["ID: " ++ id ++ "\n", "Status: READY\n"] ++ X
            ++ specMapSection "Annotations:\n" status.Annotations, true⟩
        else ⟨["ID: " ++ id ++ "\n", "Status: READY\n"] ++ X, false⟩ := by
    unfold statusBlock
    rw [hs]
    simp only [Block.deref]
    rw [Block.seq_three _ _ _ _ _ hhead (statusMaps_eq status), hD, hlab]
    simp [specMetadataLines, specMapSection]
  have hrun : PodSandboxStatus fmtTime client ID
      = ⟨[.PodSandboxStatus ⟨some ID⟩], (statusBlock fmtTime r).out,
          if (statusBlock fmtTime r).done then .ok else .nilDeref⟩ := by
    simp [PodSandboxStatus, hID, hr]
  have hlines : ∀ c ∈ (statusBlock fmtTime r).out,
      Labelled ["ID: ", "Status: ", "Network namespace: ", "IP Address: ", "Annotations:\n",
        "\t"] c := by
    intro c hc
    have hc2 : c = "ID: " ++ id ++ "\n" ∨ c = "Status: READY\n" ∨ c ∈ X ∨
        c ∈ specMapSection "Annotations:\n" status.Annotations := by
      rw [hblock] at hc
      cases d <;> simp at hc <;> tauto
    rcases hc2 with rfl | rfl | hc2 | hc2
    · rw [String.append_assoc]
      exact ⟨"ID: ", by simp, isLine_append _ _⟩
    · exact ⟨"Status: ", by simp, by decide⟩
    · exact labelled_mono (hX c hc2) (by decide)
    · exact labelled_mono (specMapSection_lines _ _ c hc2) (by decide)
  refine ⟨?_, ?_, ?_⟩
  · rw [hrun, hblock]
    cases d
    · exact ⟨X, by simp⟩
    · exact ⟨X ++ specMapSection "Annotations:\n" status.Annotations, by simp⟩
  · intro c hc
    rw [hrun] at hc
    have hl := hlines c hc
    refine ⟨?_, ?_, ?_⟩
    · rw [isMetadataLine_iff]
      exact hl.excludes (by decide)
    · intro h
      have hx : ¬ Labelled ["Created: "] c := hl.excludes (by decide)
      exact hx ⟨_, by simp, h⟩
    · intro h
      have hx : ¬ Labelled ["Labels:"] c := hl.excludes (by decide)
      exact hx ⟨_, by simp, h⟩
  · intro hl hn ha
    obtain ⟨hX0, hd⟩ := hnone hl hn
    rw [hrun, hblock, hX0, hd, ha]
    simp [specMapSection]

/-- Witness of C7: identifier `s1`, state READY, a network block with an IP
address, and nothing else. -/
theorem status_identifier_and_state_only_witness :
    (∃ rest, (PodSandboxStatus epochText
        (standIn (.ok ⟨some ⟨some "s1", none, some .READY, none, some ⟨some "10.0.0.5"⟩, none,
          none, none⟩⟩) (.error "unused")) "s1").stdout
        = ["ID: " ++ "s1" ++ "\n", "Status: READY\n"] ++ rest) ∧
    (∀ c ∈ (PodSandboxStatus epochText
        (standIn (.ok ⟨some ⟨some "s1", none, some .READY, none, some ⟨some "10.0.0.5"⟩, none,
          none, none⟩⟩) (.error "unused")) "s1").stdout,
      ¬ IsMetadataLine c ∧ ¬ IsLine "Created: " c ∧ ¬ IsLine "Labels:" c) :=
  ⟨(status_identifier_and_state_only epochText
      (standIn (.ok ⟨some ⟨some "s1", none, some .READY, none, some ⟨some "10.0.0.5"⟩, none,
        none, none⟩⟩) (.error "unused")) "s1" _ _ "s1" (by decide) rfl rfl rfl rfl rfl rfl rfl).1,
   (status_identifier_and_state_only epochText
      (standIn (.ok ⟨some ⟨some "s1", none, some .READY, none, some ⟨some "10.0.0.5"⟩, none,
        none, none⟩⟩) (.error "unused")) "s1" _ _ "s1" (by decide) rfl rfl rfl rfl rfl rfl rfl).2.1⟩

/-! ## Labels and annotations -/

theorem specMetadataLines_lines (md : Option pb.PodSandboxMetadata) (c : String)
    (h : c ∈ specMetadataLines md) : IsMetadataLine c := by
  cases md with
  | none => simp [specMetadataLines] at h
  | some m =>
    obtain ⟨n, u, ns, a⟩ := m
    simp only [specMetadataLines, List.mem_filterMap, List.mem_cons, List.mem_singleton,
      List.not_mem_nil, or_false, Option.map_eq_some'] at h
    obtain ⟨lv, hlv, v, _, rfl⟩ := h
    rw [String.append_assoc]
    rcases hlv with rfl | rfl | rfl | rfl
    · exact Or.inl (isLine_append _ _)
    · exact Or.inr (Or.inl (isLine_append _ _))
    · exact Or.inr (Or.inr (Or.inl (isLine_append _ _)))
    · exact Or.inr (Or.inr (Or.inr (isLine_append _ _)))

/-- No line with a label that precedes the mapping sections is a header. -/
theorem not_header_of_head {c : String} (h : Labelled headLabels c) :
    c ≠ "Labels:\n" ∧ c ≠ "Annotations:\n" := by
  have hx : ¬ Labelled ["Labels:\n", "Annotations:\n"] c := h.excludes (by decide)
  constructor
  · rintro rfl
    exact hx ⟨"Labels:\n", by simp, List.prefix_refl _⟩
  · rintro rfl
    exact hx ⟨"Annotations:\n", by simp, List.prefix_refl _⟩

theorem head_lines (id : String) (md : Option pb.PodSandboxMetadata) (D : List String)
    (hD : ∀ c ∈ D, Labelled ["Status: ", "Created: ", "Network namespace: ", "IP Address: "] c)
    (c : String) (h : c ∈ ("ID: " ++ id ++ "\n") :: specMetadataLines md ++ D) :
    Labelled headLabels c := by
  simp only [List.cons_append, List.mem_cons, List.mem_append] at h
  rcases h with rfl | h | h
  · rw [String.append_assoc]
    exact ⟨"ID: ", by decide, isLine_append _ _⟩
  · exact labelled_mono ((isMetadataLine_iff c).mp (specMetadataLines_lines md c h)) (by decide)
  · exact labelled_mono (hD c h) (by decide)

/-- How often a header that does not start with a tab occurs in a mapping
section: once in the section of a present mapping with that header, else never. -/
theorem count_specMapSection (h header : String) (m : Option (List (String × String)))
    (hh : ¬ IsLine "\t" h) :
    (specMapSection header m).count h = if header = h ∧ m.isSome = true then 1 else 0 := by
  cases m with
  | none => simp [specMapSection]
  | some es =>
    have hes : (es.map fun kv => "\t" ++ kv.1 ++ " -> " ++ kv.2 ++ "\n").count h = 0 := by
      rw [List.count_eq_zero]
      intro hmem
      obtain ⟨kv, _, hkv⟩ := List.mem_map.mp hmem
      apply hh
      rw [← hkv, String.append_assoc, String.append_assoc, String.append_assoc]
      exact isLine_append _ _
    simp only [specMapSection, List.count_cons, hes, Option.isSome_some, and_true, zero_add,
      beq_iff_eq]

theorem count_mapSections (labels annotations : Option (List (String × String)))
    (pre : List String) (hpre : ∀ c ∈ pre, c ≠ "Labels:\n" ∧ c ≠ "Annotations:\n") :
    (pre ++ specMapSection "Labels:\n" labels ++ specMapSection "Annotations:\n" annotations).count
        "Labels:\n" = (if labels.isSome = true then 1 else 0) ∧
    (pre ++ specMapSection "Labels:\n" labels ++ specMapSection "Annotations:\n" annotations).count
        "Annotations:\n" = (if annotations.isSome = true then 1 else 0) := by
  have h1 : pre.count "Labels:\n" = 0 := List.count_eq_zero.mpr fun hm => (hpre _ hm).1 rfl
  have h2 : pre.count "Annotations:\n" = 0 := List.count_eq_zero.mpr fun hm => (hpre _ hm).2 rfl
  have hne : ("Labels:\n" : String) ≠ "Annotations:\n" := by decide
  simp only [List.count_append, h1, h2, count_specMapSection _ _ _ (show ¬ IsLine "\t" "Labels:\n" by decide),
    count_specMapSection _ _ _ (show ¬ IsLine "\t" "Annotations:\n" by decide), hne, hne.symm,
    true_and, false_and, if_false, zero_add, add_zero, and_self]

/-- A status rendering that ran to its end: lines with earlier labels, then the
two mapping sections. -/
theorem statusBlock_done (fmtTime : Int → String) (r : pb.PodSandboxStatusResponse)
    (status : pb.PodSandboxStatus) (hs : r.Status = some status)
    (hdone : (statusBlock fmtTime r).done = true) :
    ∃ pre, (statusBlock fmtTime r).out
        = pre ++ specMapSection "Labels:\n" status.Labels
            ++ specMapSection "Annotations:\n" status.Annotations ∧
      ∀ c ∈ pre, Labelled headLabels c := by
  unfold statusBlock at hdone ⊢
  rw [hs] at hdone ⊢
  simp only [Block.deref] at hdone ⊢
  cases hid : status.Id with
  | none =>
    simp [statusHead, hid, Block.seq, Block.deref, Block.andThen, Block.fault] at hdone
  | some id =>
    rw [Block.seq_three _ _ _ _ _ (statusHead_eq status id hid) (statusMaps_eq status)] at hdone ⊢
    cases hd : (Block.seq (statusDetail fmtTime status)).done
    · simp [hd] at hdone
    · refine ⟨("ID: " ++ id ++ "\n") :: specMetadataLines status.Metadata
          ++ (Block.seq (statusDetail fmtTime status)).out, by simp [List.append_assoc], ?_⟩
      exact head_lines id _ _ (statusDetail_lines fmtTime status)

/-- A list rendering of one summary that ran to its end: lines with earlier
labels, then the two mapping sections. -/
theorem podBlock_done (fmtTime : Int → String) (pod : pb.PodSandbox)
    (hdone : (podBlock fmtTime false pod).done = true) :
    ∃ pre, (podBlock fmtTime false pod).out
        = pre ++ specMapSection "Labels:\n" pod.Labels
            ++ specMapSection "Annotations:\n" pod.Annotations ∧
      ∀ c ∈ pre, Labelled headLabels c := by
  unfold podBlock at hdone ⊢
  simp only [Bool.false_eq_true, if_false] at hdone ⊢
  cases hid : pod.Id with
  | none =>
    simp [podHead, hid, Block.seq, Block.deref, Block.andThen, Block.fault] at hdone
  | some id =>
    rw [Block.seq_three _ _ _ _ _ (podHead_eq pod id hid) (podMaps_eq pod)] at hdone ⊢
    cases hd : (Block.seq (podDetail fmtTime pod)).done
    · simp [hd] at hdone
    · refine ⟨("ID: " ++ id ++ "\n") :: specMetadataLines pod.Metadata
          ++ (Block.seq (podDetail fmtTime pod)).out, by simp [List.append_assoc], ?_⟩
      exact head_lines id _ _ (podDetail_lines fmtTime pod)

theorem Block.andThen_done (a b : Block) :
    (Block.andThen a b).done = true ↔ a.done = true ∧ b.done = true := by
  cases ha : a.done <;> simp [Block.andThen, ha]

/-- The non-quiet loop that ran to its end: every summary is rendered as lines
with earlier labels followed by its two mapping sections, and each header
occurs once per summary whose mapping is present. -/
theorem seq_podBlock_done (fmtTime : Int → String) (items : List pb.PodSandbox)
    (hdone : (Block.seq (items.map (podBlock fmtTime false))).done = true) :
    (∃ pres : List (List String), pres.length = items.length ∧
      (Block.seq (items.map (podBlock fmtTime false))).out
        = (List.zipWith (fun pod pre =>
            pre ++ specMapSection "Labels:\n" pod.Labels
              ++ specMapSection "Annotations:\n" pod.Annotations) items pres).flatten ∧
      ∀ pre ∈ pres, ∀ c ∈ pre, c ≠ "Labels:\n" ∧ c ≠ "Annotations:\n") ∧
    (Block.seq (items.map (podBlock fmtTime false))).out.count "Labels:\n"
      = items.countP (fun pod => pod.Labels.isSome) ∧
    (Block.seq (items.map (podBlock fmtTime false))).out.count "Annotations:\n"
      = items.countP (fun pod => pod.Annotations.isSome) := by
  induction items with
  | nil => exact ⟨⟨[], rfl, by simp [Block.seq, Block.nop], by simp⟩, by simp [Block.seq, Block.nop],
      by simp [Block.seq, Block.nop]⟩
  | cons pod items ih =>
    simp only [List.map_cons, Block.seq_cons] at hdone ⊢
    obtain ⟨hb, hrest⟩ := (Block.andThen_done _ _).mp hdone
    obtain ⟨⟨pres, hlen, hout, hpres⟩, hcl, hca⟩ := ih hrest
    obtain ⟨pre, hpre, hlab⟩ := podBlock_done fmtTime pod hb
    have hhead : ∀ c ∈ pre, c ≠ "Labels:\n" ∧ c ≠ "Annotations:\n" :=
      fun c hc => not_header_of_head (hlab c hc)
    obtain ⟨hc1, hc2⟩ := count_mapSections pod.Labels pod.Annotations pre hhead
    rw [Block.andThen_of_done _ hb]
    refine ⟨⟨pre :: pres, by simp [hlen], ?_, ?_⟩, ?_, ?_⟩
    · simp only [List.zipWith_cons_cons, List.flatten_cons, hpre, hout]
    · intro x hx
      rcases List.mem_cons.mp hx with rfl | hx
      · exact hhead
      · exact hpres x hx
    · simp only [List.count_append, List.countP_cons, hcl]
      rw [hpre, hc1]
      cases pod.Labels <;> simp [Nat.add_comm]
    · simp only [List.count_append, List.countP_cons, hca]
      rw [hpre, hc2]
      cases pod.Annotations <;> simp [Nat.add_comm]

/-- C6, amended: whenever `PodSandboxStatus` returns without failing, its
output ends with the labels section followed by the annotations section, where
the section of an absent mapping is empty and the section of a present mapping
- with or without entries - is the header line followed by one `key -> value`
line per entry; no earlier line is a header, so each header is printed once if
its mapping is present and not at all otherwise. The same holds for every
summary rendered by `ListPodSandboxes` with `quiet = false` whenever that
returns without failing. -/
theorem map_sections_rule {ρ : Type} (fmtTime : Int → String)
    (client : pb.RuntimeServiceClient ρ) :
    (∀ ID r status, ID ≠ "" → client.PodSandboxStatus ⟨some ID⟩ = .ok r →
      r.Status = some status → (PodSandboxStatus fmtTime client ID).exit = .ok →
      (∃ pre, (PodSandboxStatus fmtTime client ID).stdout
          = pre ++ specMapSection "Labels:\n" status.Labels
              ++ specMapSection "Annotations:\n" status.Annotations ∧
        ∀ c ∈ pre, c ≠ "Labels:\n" ∧ c ≠ "Annotations:\n") ∧
      (PodSandboxStatus fmtTime client ID).stdout.count "Labels:\n"
        = (if status.Labels.isSome = true then 1 else 0) ∧
      (PodSandboxStatus fmtTime client ID).stdout.count "Annotations:\n"
        = (if status.Annotations.isSome = true then 1 else 0)) ∧
    (∀ r, client.ListPodSandbox {} = .ok r →
      (ListPodSandboxes fmtTime client false).exit = .ok →
      (∃ pres : List (List String), pres.length = r.Items.length ∧
        (ListPodSandboxes fmtTime client false).stdout
          = (List.zipWith (fun pod pre =>
              pre ++ specMapSection "Labels:\n" pod.Labels
                ++ specMapSection "Annotations:\n" pod.Annotations) r.Items pres).flatten ∧
        ∀ pre ∈ pres, ∀ c ∈ pre, c ≠ "Labels:\n" ∧ c ≠ "Annotations:\n") ∧
      (ListPodSandboxes fmtTime client false).stdout.count "Labels:\n"
        = r.Items.countP (fun pod => pod.Labels.isSome) ∧
      (ListPodSandboxes fmtTime client false).stdout.count "Annotations:\n"
        = r.Items.countP (fun pod => pod.Annotations.isSome)) := by
  constructor
  · intro ID r status hID hr hs hexit
    have hrun : PodSandboxStatus fmtTime client ID
        = ⟨[.PodSandboxStatus ⟨some ID⟩], (statusBlock fmtTime r).out,
            if (statusBlock fmtTime r).done then .ok else .nilDeref⟩ := by
      simp [PodSandboxStatus, hID, hr]
    have hdone : (statusBlock fmtTime r).done = true := by
      rw [hrun] at hexit
      cases hd : (statusBlock fmtTime r).done
      · simp [hd] at hexit
      · rfl
    obtain ⟨pre, hpre, hlab⟩ := statusBlock_done fmtTime r status hs hdone
    have hhead : ∀ c ∈ pre, c ≠ "Labels:\n" ∧ c ≠ "Annotations:\n" :=
      fun c hc => not_header_of_head (hlab c hc)
    obtain ⟨hc1, hc2⟩ := count_mapSections status.Labels status.Annotations pre hhead
    rw [hrun]
    simp only [hpre]
    exact ⟨⟨pre, rfl, hhead⟩, hc1, hc2⟩
  · intro r hr hexit
    have hrun : ListPodSandboxes fmtTime client false
        = ⟨[.ListPodSandbox {}], (Block.seq (r.Items.map (podBlock fmtTime false))).out,
            if (Block.seq (r.Items.map (podBlock fmtTime false))).done then .ok
            else .nilDeref⟩ := by
      simp [ListPodSandboxes, hr]
    have hdone : (Block.seq (r.Items.map (podBlock fmtTime false))).done = true := by
      rw [hrun] at hexit
      cases hd : (Block.seq (r.Items.map (podBlock fmtTime false))).done
      · simp [hd] at hexit
      · rfl
    rw [hrun]
    exact seq_podBlock_done fmtTime r.Items hdone

/-- Witness of C6 (amended): the status `sampleStatus`, with one label and no
annotations, and the two summaries `sampleItems`, one of them with a label. -/
theorem map_sections_rule_witness :
    (PodSandboxStatus epochText
        (standIn (.ok ⟨some sampleStatus⟩) (.ok ⟨sampleItems⟩)) "s1").stdout.count "Labels:\n"
      = (if sampleStatus.Labels.isSome = true then 1 else 0) ∧
    (ListPodSandboxes epochText
        (standIn (.ok ⟨some sampleStatus⟩) (.ok ⟨sampleItems⟩)) false).stdout.count "Labels:\n"
      = sampleItems.countP (fun pod => pod.Labels.isSome) :=
  ⟨((map_sections_rule epochText (standIn (.ok ⟨some sampleStatus⟩) (.ok ⟨sampleItems⟩))).1
      "s1" ⟨some sampleStatus⟩ sampleStatus (by decide) rfl rfl (by decide)).2.1,
   ((map_sections_rule epochText (standIn (.ok ⟨some sampleStatus⟩) (.ok ⟨sampleItems⟩))).2
      ⟨sampleItems⟩ rfl (by decide)).2.1⟩

/-- C6 as stated fails: for a status (and for a summary) whose labels mapping is
present but empty, the header line `Labels:` is printed all the same, with no
entry line after it. -/
theorem empty_mapping_header_counterexample :
    (PodSandboxStatus epochText
        (standIn (.ok ⟨some ⟨some "s1", none, none, none, none, none, some [], none⟩⟩)
          (.ok ⟨[⟨some "s1", none, some .READY, some 7, some [], none⟩]⟩)) "s1")
      = ⟨[.PodSandboxStatus ⟨some "s1"⟩], ["ID: s1\n", "Labels:\n"], .ok⟩ ∧
    (ListPodSandboxes epochText
        (standIn (.ok ⟨some ⟨some "s1", none, none, none, none, none, some [], none⟩⟩)
          (.ok ⟨[⟨some "s1", none, some .READY, some 7, some [], none⟩]⟩)) false)
      = ⟨[.ListPodSandbox {}], ["ID: s1\n", "Status: READY\n", "Created: 7\n", "Labels:\n"],
          .ok⟩ ∧
    ¬ ("Labels:\n" ∈ (PodSandboxStatus epochText
        (standIn (.ok ⟨some ⟨some "s1", none, none, none, none, none, some [], none⟩⟩)
          (.ok ⟨[⟨some "s1", none, some .READY, some 7, some [], none⟩]⟩)) "s1").stdout ↔
      ∃ es : List (String × String), (some [] : Option (List (String × String))) = some es ∧
        es ≠ []) := by
  refine ⟨by decide, by decide, ?_⟩
  intro h
  obtain ⟨es, hes, hne⟩ := h.mp (by decide)
  exact hne (Option.some.inj hes).symm

/-! ## Optional fields read without a presence check -/

/-- C3 fails on the code: a summary without creation time makes
`ListPodSandboxes` stop in a nil pointer dereference (line 293) after the
identifier and state lines; a status whose Linux block has no namespaces value,
or whose namespaces value has no network path, makes `PodSandboxStatus` stop in
one (line 245); so does a network block without IP address (line 248). -/
theorem unguarded_fields_stop_the_run :
    ListPodSandboxes epochText
        (standIn (.error "unused") (.ok ⟨[⟨some "s1", none, some .READY, none, none, none⟩]⟩))
        false
      = ⟨[.ListPodSandbox {}], ["ID: s1\n", "Status: READY\n"], .nilDeref⟩ ∧
    PodSandboxStatus epochText
        (standIn (.ok ⟨some ⟨some "s1", none, none, none, none, some ⟨none⟩, none, none⟩⟩)
          (.error "unused")) "s1"
      = ⟨[.PodSandboxStatus ⟨some "s1"⟩], ["ID: s1\n"], .nilDeref⟩ ∧
    PodSandboxStatus epochText
        (standIn (.ok ⟨some ⟨some "s1", none, none, none, none, some ⟨some ⟨none⟩⟩, none, none⟩⟩)
          (.error "unused")) "s1"
      = ⟨[.PodSandboxStatus ⟨some "s1"⟩], ["ID: s1\n"], .nilDeref⟩ ∧
    PodSandboxStatus epochText
        (standIn (.ok ⟨some ⟨some "s1", none, none, none, some ⟨none⟩, none, none, none⟩⟩)
          (.error "unused")) "s1"
      = ⟨[.PodSandboxStatus ⟨some "s1"⟩], ["ID: s1\n"], .nilDeref⟩ := by
  refine ⟨by decide, by decide, by decide, by decide⟩

/-! ## Status rendering against list rendering -/

/-- C9 fails on the code: for the same identifier, state, creation time,
labels and annotations (no metadata, no Linux block, no network block), the
list rendering of a summary and the status rendering differ when the state is
absent (the list prints `Status: <nil>`, the status prints no state line) and
when the creation time is absent (the list stops in a nil pointer dereference,
the status prints no Created line and returns). -/
theorem list_and_status_rendering_differ :
    (ListPodSandboxes epochText
        (standIn (.ok ⟨some ⟨some "s1", none, none, some 0, none, none, none, none⟩⟩)
          (.ok ⟨[⟨some "s1", none, none, some 0, none, none⟩]⟩)) false).stdout
      = ["ID: s1\n", "Status: <nil>\n", "Created: 0\n"] ∧
    (PodSandboxStatus epochText
        (standIn (.ok ⟨some ⟨some "s1", none, none, some 0, none, none, none, none⟩⟩)
          (.ok ⟨[⟨some "s1", none, none, some 0, none, none⟩]⟩)) "s1").stdout
      = ["ID: s1\n", "Created: 0\n"] ∧
    ListPodSandboxes epochText
        (standIn (.ok ⟨some ⟨some "s1", none, some .READY, none, none, none, none, none⟩⟩)
          (.ok ⟨[⟨some "s1", none, some .READY, none, none, none⟩]⟩)) false
      = ⟨[.ListPodSandbox {}], ["ID: s1\n", "Status: READY\n"], .nilDeref⟩ ∧
    PodSandboxStatus epochText
        (standIn (.ok ⟨some ⟨some "s1", none, some .READY, none, none, none, none, none⟩⟩)
          (.ok ⟨[⟨some "s1", none, some .READY, none, none, none⟩]⟩)) "s1"
      = ⟨[.PodSandboxStatus ⟨some "s1"⟩], ["ID: s1\n", "Status: READY\n"], .ok⟩ := by
  refine ⟨by decide, by decide, by decide, by decide⟩

/-- Where the two renderings do agree: for a summary and a status with the same
identifier, metadata, labels and annotations, both with the same state present
and the same creation time present, the status without Linux and network
block, the two operations print the same texts and end the same way. -/
theorem list_and_status_rendering_agree {ρ : Type} (fmtTime : Int → String)
    (client : pb.RuntimeServiceClient ρ) (ID : String) (pod : pb.PodSandbox)
    (status : pb.PodSandboxStatus) (st : pb.PodSandboxState) (t : Int)
    (hID : ID ≠ "") (hlist : client.ListPodSandbox {} = .ok ⟨[pod]⟩)
    (hstatus : client.PodSandboxStatus ⟨some ID⟩ = .ok ⟨some status⟩)
    (hid : status.Id = pod.Id) (hmd : status.Metadata = pod.Metadata)
    (hst : status.State = some st) (hst2 : pod.State = some st)
    (hcr : status.CreatedAt = some t) (hcr2 : pod.CreatedAt = some t)
    (hlinux : status.Linux = none) (hnet : status.Network = none)
    (hlab : status.Labels = pod.Labels) (hann : status.Annotations = pod.Annotations) :
    (ListPodSandboxes fmtTime client false).stdout
        = (PodSandboxStatus fmtTime client ID).stdout ∧
    (ListPodSandboxes fmtTime client false).exit = (PodSandboxStatus fmtTime client ID).exit := by
  have hd1 : Block.seq (podDetail fmtTime pod)
      = ⟨["Status: " ++ st.name ++ "\n", "Created: " ++ fmtTime t ++ "\n"], true⟩ := by
    simp [podDetail, hst2, hcr2, Block.seq, Block.deref, Block.print_andThen, Block.nop, fmtState]
  have hd2 : Block.seq (statusDetail fmtTime status)
      = ⟨["Status: " ++ st.name ++ "\n", "Created: " ++ fmtTime t ++ "\n"], true⟩ := by
    simp [statusDetail, hst, hcr, hlinux, hnet, Block.seq, Block.whenSome, Block.print_andThen,
      Block.nop_andThen, fmtState]
    simp [Block.nop]
  have hblock : Block.seq [podBlock fmtTime false pod] = statusBlock fmtTime ⟨some status⟩ := by
    cases hp : pod.Id with
    | none =>
      simp [podBlock, statusBlock, podHead, statusHead, hid, hp, Block.seq, Block.deref,
        Block.andThen, Block.fault]
    | some id =>
      have h1 := Block.seq_three _ (podDetail fmtTime pod) _ _ _ (podHead_eq pod id hp)
        (podMaps_eq pod)
      have h2 := Block.seq_three _ (statusDetail fmtTime status) _ _ _
        (statusHead_eq status id (hid.trans hp)) (statusMaps_eq status)
      rw [hd1] at h1
      rw [hd2, hmd, hlab, hann] at h2
      simp only [podBlock, statusBlock, Block.deref, Bool.false_eq_true, if_false, Block.seq_cons,
        h1, h2]
      simp [Block.seq, Block.andThen, Block.nop]
  simp only [ListPodSandboxes, PodSandboxStatus, hlist, hstatus, if_neg hID, List.map_cons,
    List.map_nil, hblock, and_self]

/-! ## Name override -/

/-- C2 fails on the code: for a loaded config without metadata block and the
override name `B`, `RunPodSandbox` stops in a nil pointer dereference at the
store `config.Metadata.Name = &name` (line 173), before any request is sent. -/
theorem override_without_metadata_stops :
    RunPodSandbox (loadFrom ⟨none, ()⟩) (standIn (.error "unused") (.error "unused"))
        "config.json" "B"
      = ⟨[], [], .nilDeref⟩ := by
  decide

/-- Where the override does work: when the loaded config has a metadata block,
or the override name is empty, exactly one create request is sent; its config
is the loaded config with `metadata.name` replaced by a non-empty override, and
the loaded config itself for the empty override. -/
theorem override_with_metadata {ρ : Type}
    (load : String → Except GoError (pb.PodSandboxConfig ρ))
    (client : pb.RuntimeServiceClient ρ) (path name : String) (config : pb.PodSandboxConfig ρ)
    (hload : load path = .ok config) :
    (name = "" → (RunPodSandbox load client path name).calls
        = [.RunPodSandbox ⟨some config⟩]) ∧
    (∀ md, name ≠ "" → config.Metadata = some md →
      (RunPodSandbox load client path name).calls
        = [.RunPodSandbox ⟨some ⟨some ⟨some name, md.Uid, md.Namespace, md.Attempt⟩,
            config.Rest⟩⟩]) := by
  constructor
  · intro hname
    unfold RunPodSandbox
    simp only [hload, hname, ne_eq, not_true_eq_false, if_false]
    cases client.RunPodSandbox ⟨some config⟩ with
    | error e => rfl
    | ok r =>
      obtain ⟨id⟩ := r
      cases id <;> rfl
  · intro md hname hmd
    unfold RunPodSandbox
    simp only [hload, hname, ne_eq, not_false_eq_true, if_true, setMetadataName, hmd]
    cases client.RunPodSandbox ⟨some ⟨some ⟨some name, md.Uid, md.Namespace, md.Attempt⟩,
        config.Rest⟩⟩ with
    | error e => rfl
    | ok r =>
      obtain ⟨id⟩ := r
      cases id <;> rfl

/-! ## Metadata of summaries behind a summary without creation time -/

/-- C10 fails on the code: for a list response of two summaries, the first
without creation time, the second with a metadata block that has a name,
`ListPodSandboxes` with `quiet = false` stops in the nil pointer dereference of
line 293 while it renders the first summary; the second summary is never
rendered, so its Name line is not printed although its metadata block and the
name in it are present. -/
theorem later_summary_metadata_not_printed :
    ListPodSandboxes epochText
        (standIn (.error "unused")
          (.ok ⟨[⟨some "s1", none, some .READY, none, none, none⟩,
                 ⟨some "s2", some ⟨some "web", none, none, none⟩, some .READY, some 7, none,
                   none⟩]⟩)) false
      = ⟨[.ListPodSandbox {}], ["ID: s1\n", "Status: READY\n"], .nilDeref⟩ ∧
    "Name: web\n" ∉ (ListPodSandboxes epochText
        (standIn (.error "unused")
          (.ok ⟨[⟨some "s1", none, some .READY, none, none, none⟩,
                 ⟨some "s2", some ⟨some "web", none, none, none⟩, some .READY, some 7, none,
                   none⟩]⟩)) false).stdout ∧
    ∀ c ∈ (ListPodSandboxes epochText
        (standIn (.error "unused")
          (.ok ⟨[⟨some "s1", none, some .READY, none, none, none⟩,
                 ⟨some "s2", some ⟨some "web", none, none, none⟩, some .READY, some 7, none,
                   none⟩]⟩)) false).stdout, ¬ IsLine "Name: " c := by
  refine ⟨by decide, by decide, by decide⟩
